import Mathlib

/-!
Verification of the `callback-cell` crate: a lock-free single-slot container
for at most one pending one-shot callback.

The embedding. Each cell variant is modelled as a state record: the atomic
slot (`AtomicPtr`, a nullable pointer, modelled as an `Option` whose `some`
carries the identity of the heap envelope it points to), the allocator
counter `nextId` handing out fresh envelope identities (one per `Box::new`
in `put`), and an append-only event log recording, per envelope id, the
observable heap/callback effects of the source: allocation, running the
callback, dropping it without running it, and freeing the heap allocation.
The Rust functions `new`, `put`, `take_call`, `drop` (the `Drop` impl),
`default`, `fmt` (the `Debug` impl), and the free functions `fn_ptr_impl`
and `drop_raw` are each translated to a Lean function of the same name
operating on this state.

In the no-argument variant a callback `F: FnOnce()` has no observable
behaviour other than being run or dropped, so an envelope is represented by
its id alone and "invoking f" is the `run` event of the envelope `put f`
allocated.  In the input/output variant the envelope also carries the
callback as a Lean function `I → O`, and the `IoSlot` union is modelled as a
sum type written and read exactly where the source writes and reads it.

For the concurrency claim, the only shared-memory access any operation
performs is a single atomic `swap` on the slot, so every interleaving of
concurrent operations linearizes to a sequence of swaps; `Slot.runSwaps`
replays such a sequence from the empty slot and returns what each swap
handed back to its caller together with the final slot contents (claimed by
the destructor).
-/

namespace CallbackCellRepo

/-- Observable heap/callback events, tagged by envelope id:
`alloc` = `Box::new` in `put`; `run` = the callback is invoked (and thereby
consumed); `dispose` = the callback is dropped without being invoked;
`free` = the heap allocation is deallocated (`Box::from_raw` drop). -/
inductive Event where
  | alloc (id : Nat)
  | run (id : Nat)
  | dispose (id : Nat)
  | free (id : Nat)
deriving DecidableEq

namespace WithoutArgs

/-- `CallbackCell(AtomicPtr<CallbackCellInner<()>>)` from `without_args.rs`,
together with the allocator counter and the event log of the run so far. -/
structure CallbackCell where
  slot : Option Nat
  nextId : Nat
  events : List Event
deriving DecidableEq

/-- `unsafe fn fn_ptr_impl<F>(run: bool, ptr)`: rebuilds the `Box`; if `run`
is true the callback is invoked (which consumes it), otherwise dropping the
box drops the callback unrun; either way the allocation is freed when the
box goes out of scope.  Returns the events this emits for envelope `id`. -/
def fn_ptr_impl (run : Bool) (id : Nat) : List Event :=
  if run then [Event.run id, Event.free id]
  else [Event.dispose id, Event.free id]

/-- `unsafe fn drop_raw(ptr)`: if the pointer is non-null, call the
envelope's `fn_ptr` with `run = false`. -/
def drop_raw : Option Nat → List Event
  | none => []
  | some id => fn_ptr_impl false id

/-- `CallbackCell::new`: null slot. -/
def CallbackCell.new : CallbackCell :=
  ⟨none, 0, []⟩

/-- `CallbackCell::put`: allocate a fresh envelope (`Box::new` +
`Box::into_raw`), atomically swap it into the slot, then `drop_raw` the
previous pointer. -/
def CallbackCell.put (c : CallbackCell) : CallbackCell :=
  let id := c.nextId
  let old_ptr := c.slot
  ⟨some id, id + 1, c.events ++ [Event.alloc id] ++ drop_raw old_ptr⟩

/-- `CallbackCell::take_call`: atomically swap null into the slot; if the
old pointer is non-null, call its `fn_ptr` with `run = true` and return
`true`, else return `false`. -/
def CallbackCell.take_call (c : CallbackCell) : Bool × CallbackCell :=
  let ptr := c.slot
  match ptr with
  | some id => (true, ⟨none, c.nextId, c.events ++ fn_ptr_impl true id⟩)
  | none => (false, ⟨none, c.nextId, c.events⟩)

/-- `impl Drop for CallbackCell`: `drop_raw` on the current slot contents.
Returns the final event log of the cell's lifetime. -/
def CallbackCell.dropCell (c : CallbackCell) : List Event :=
  c.events ++ drop_raw c.slot

/-- `impl Default for CallbackCell`: `Self::new()`. -/
def CallbackCell.default : CallbackCell :=
  CallbackCell.new

/-- `impl Debug for CallbackCell`: a relaxed load of the slot; writes one of
two fixed strings depending only on whether the loaded pointer is null.
Returns the written string and the (untouched) cell. -/
def CallbackCell.fmt (c : CallbackCell) : String × CallbackCell :=
  if c.slot = none then ("CallbackCell(NULL)", c)
  else ("CallbackCell(NOT NULL)", c)

/-- Allocator well-formedness: any envelope in the slot was handed out by
the allocator, i.e. its id is below `nextId`.  Holds for `new` and is
preserved by `put` and `take_call`. -/
def CallbackCell.WF (c : CallbackCell) : Prop :=
  match c.slot with
  | none => True
  | some j => j < c.nextId

instance (c : CallbackCell) : Decidable c.WF := by
  unfold CallbackCell.WF
  cases c.slot <;> infer_instance

end WithoutArgs

namespace WithArgs

/-- The `union IoSlot<I, O> { input: ManuallyDrop<I>, output: ManuallyDrop<O> }`
from `with_args.rs`: at any moment it holds the not-yet-consumed input or
the produced output. -/
inductive IoSlot (I O : Type) where
  | input : I → IoSlot I O
  | output : O → IoSlot I O

/-- `CallbackCellArgs<I, O>` from `with_args.rs`: the atomic slot (a null or
a pointer to an envelope holding the callback), the allocator counter and
the event log. -/
structure CallbackCellArgs (I O : Type) where
  slot : Option (Nat × (I → O))
  nextId : Nat
  events : List Event

/-- `unsafe fn fn_ptr_impl<F, I, O>(run: Option<&mut IoSlot>, ptr)`:
rebuilds the `Box`; in run mode (`Some`) it takes the input out of the
union, invokes the callback with it and writes the output back into the
union; in dispose mode (`None`) the callback is dropped unrun.  The
allocation is freed on every path.  Returns the union contents after the
call and the emitted events.  (The `output` branch of run mode re-reads the
union as an input, which the source never does: `take_call`, the only run
mode caller, always writes `input` first; the branch is unreachable.) -/
def fn_ptr_impl {I O : Type} (f : I → O) (id : Nat) :
    Option (IoSlot I O) → Option (IoSlot I O) × List Event
  | some (IoSlot.input x) =>
      (some (IoSlot.output (f x)), [Event.run id, Event.free id])
  | some (IoSlot.output o) =>
      (some (IoSlot.output o), [Event.free id])
  | none => (none, [Event.dispose id, Event.free id])

/-- `unsafe fn drop_raw<I, O>(ptr)`: if the pointer is non-null, call the
envelope's `fn_ptr` with `None` (dispose mode). -/
def drop_raw {I O : Type} : Option (Nat × (I → O)) → List Event
  | none => []
  | some (id, f) => (fn_ptr_impl f id none).2

/-- `CallbackCellArgs::new`: null slot. -/
def CallbackCellArgs.new {I O : Type} : CallbackCellArgs I O :=
  ⟨none, 0, []⟩

/-- `CallbackCellArgs::put`: allocate a fresh envelope for `f`, atomically
swap it into the slot, then `drop_raw` the previous pointer. -/
def CallbackCellArgs.put {I O : Type} (c : CallbackCellArgs I O) (f : I → O) :
    CallbackCellArgs I O :=
  let id := c.nextId
  let old_ptr := c.slot
  ⟨some (id, f), id + 1, c.events ++ [Event.alloc id] ++ drop_raw old_ptr⟩

/-- `CallbackCellArgs::take_call(input)`: atomically swap null into the
slot.  If the old pointer is non-null, build an `IoSlot` holding `input`,
call the envelope's `fn_ptr` in run mode on it, and return `Ok` of the
output read back from the union; otherwise return `Err(input)`.  (The
non-output fallback of the final union read is unreachable: run mode always
writes the output before returning.) -/
def CallbackCellArgs.take_call {I O : Type} (c : CallbackCellArgs I O)
    (input : I) : Except I O × CallbackCellArgs I O :=
  let ptr := c.slot
  match ptr with
  | some (id, f) =>
      let io_slot : Option (IoSlot I O) := some (IoSlot.input input)
      let res := fn_ptr_impl f id io_slot
      let out : Except I O :=
        match res.1 with
        | some (IoSlot.output o) => Except.ok o
        | _ => Except.error input
      (out, ⟨none, c.nextId, c.events ++ res.2⟩)
  | none => (Except.error input, ⟨none, c.nextId, c.events⟩)

/-- `impl<I, O> Drop for CallbackCellArgs<I, O>`: `drop_raw` on the current
slot contents.  Returns the final event log of the cell's lifetime. -/
def CallbackCellArgs.dropCell {I O : Type} (c : CallbackCellArgs I O) :
    List Event :=
  c.events ++ drop_raw c.slot

/-- `impl<I, O> Default for CallbackCellArgs<I, O>`: `Self::new()`. -/
def CallbackCellArgs.default {I O : Type} : CallbackCellArgs I O :=
  CallbackCellArgs.new

/-- `impl<I, O> Debug for CallbackCellArgs<I, O>`: a relaxed load of the
slot; writes one of two fixed strings depending only on whether the loaded
pointer is null.  Returns the written string and the (untouched) cell. -/
def CallbackCellArgs.fmt {I O : Type} (c : CallbackCellArgs I O) :
    String × CallbackCellArgs I O :=
  if c.slot.isNone then ("CallbackCellArgs(NULL)", c)
  else ("CallbackCellArgs(NOT NULL)", c)

/-- Allocator well-formedness: any envelope in the slot was handed out by
the allocator, i.e. its id is below `nextId`. -/
def CallbackCellArgs.WF {I O : Type} (c : CallbackCellArgs I O) : Prop :=
  match c.slot with
  | none => True
  | some (j, _) => j < c.nextId

end WithArgs

namespace Slot

/-- Replay a linearized sequence of atomic swaps on the slot, starting from
slot contents `s`.  `ops` lists, in linearization order, the value each
operation swaps in (`put` swaps in `some id` of its freshly allocated
envelope; `take_call` swaps in `none`).  Returns the list of previous
values handed back to each swapping operation, and the final slot contents
(which the cell's destructor claims). -/
def runSwaps : Option Nat → List (Option Nat) → List (Option Nat) × Option Nat
  | s, [] => ([], s)
  | s, op :: ops =>
      let r := runSwaps op ops
      (s :: r.1, r.2)

/-- How many observers claim envelope `id` over a whole linearized history
`ops` of a cell that starts empty: the operations whose swap handed them
`some id` back, plus the destructor if `some id` is still in the slot at the
end. -/
def claimCount (ops : List (Option Nat)) (id : Nat) : Nat :=
  let r := runSwaps none ops
  r.1.count (some id) + (if r.2 = some id then 1 else 0)

end Slot

/-! Helper lemmas about the events the dispose path emits. -/

theorem WithoutArgs.count_drop_raw_run_noargs (o : Option Nat) (id : Nat) :
    (WithoutArgs.drop_raw o).count (Event.run id) = 0 := by
  cases o <;> simp [WithoutArgs.drop_raw, WithoutArgs.fn_ptr_impl, List.count_cons]

theorem WithArgs.count_drop_raw_run_args {I O : Type}
    (o : Option (Nat × (I → O))) (id : Nat) :
    (WithArgs.drop_raw o).count (Event.run id) = 0 := by
  cases o with
  | none => simp [WithArgs.drop_raw]
  | some p =>
      cases p
      simp [WithArgs.drop_raw, WithArgs.fn_ptr_impl, List.count_cons]

/-- Claim C1: `put(f)` immediately followed by `take_call` invokes `f`
exactly once and reports presence.  The no-argument variant returns `true`
and the event suffix produced by the two operations contains exactly one
`run` of the envelope `put` allocated; the input/output variant returns
`Ok (f x)` for `take_call(x)`, again with exactly one `run` of `f`'s
envelope. -/
theorem C1_round_trip {I O : Type} (c : WithoutArgs.CallbackCell)
    (ca : WithArgs.CallbackCellArgs I O) (f : I → O) (x : I) :
    ((c.put).take_call).1 = true
    ∧ ((((c.put).take_call).2.events.drop c.events.length).count
        (Event.run c.nextId) = 1)
    ∧ (((ca.put f).take_call x).1 = Except.ok (f x))
    ∧ ((((ca.put f).take_call x).2.events.drop ca.events.length).count
        (Event.run ca.nextId) = 1) := by
  refine ⟨rfl, ?_, rfl, ?_⟩
  · have h : ((c.put).take_call).2.events
        = c.events ++ ([Event.alloc c.nextId] ++ (WithoutArgs.drop_raw c.slot
            ++ WithoutArgs.fn_ptr_impl true c.nextId)) := by
      simp [WithoutArgs.CallbackCell.put, WithoutArgs.CallbackCell.take_call,
        List.append_assoc]
    rw [h, List.drop_left]
    simp [WithoutArgs.fn_ptr_impl, List.count_cons, List.count_append,
      WithoutArgs.count_drop_raw_run_noargs]
  · have h : (((ca.put f).take_call x)).2.events
        = ca.events ++ ([Event.alloc ca.nextId] ++ (WithArgs.drop_raw ca.slot
            ++ [Event.run ca.nextId, Event.free ca.nextId])) := by
      simp [WithArgs.CallbackCellArgs.put, WithArgs.CallbackCellArgs.take_call,
        WithArgs.fn_ptr_impl, List.append_assoc]
    rw [h, List.drop_left]
    simp [List.count_cons, List.count_append, WithArgs.count_drop_raw_run_args]

/-- Claim C3: `take_call` on a freshly constructed cell reports absence and
invokes nothing (its event log stays empty); the no-argument variant
returns `false`, the input/output variant returns `Err` of the original
input; and `take_call` returns the success result exactly when the cell was
occupied. -/
theorem C3_fresh_cell_absence {I O : Type} (x : I) :
    (WithoutArgs.CallbackCell.new.take_call).1 = false
    ∧ (WithoutArgs.CallbackCell.new.take_call).2.events = []
    ∧ (((WithArgs.CallbackCellArgs.new :
          WithArgs.CallbackCellArgs I O).take_call x).1 = Except.error x)
    ∧ (((WithArgs.CallbackCellArgs.new :
          WithArgs.CallbackCellArgs I O).take_call x).2.events = [])
    ∧ (∀ c : WithoutArgs.CallbackCell, (c.take_call).1 = true ↔ c.slot ≠ none)
    ∧ (∀ c : WithArgs.CallbackCellArgs I O, ∀ y : I,
        (∃ o, (c.take_call y).1 = Except.ok o) ↔ c.slot ≠ none) := by
  refine ⟨rfl, rfl, rfl, rfl, ?_, ?_⟩
  · intro c
    cases h : c.slot <;>
      simp [WithoutArgs.CallbackCell.take_call, h]
  · intro c y
    cases h : c.slot with
    | none => simp [WithArgs.CallbackCellArgs.take_call, h]
    | some p =>
        cases p
        simp [WithArgs.CallbackCellArgs.take_call, h, WithArgs.fn_ptr_impl]

/-- Claim C4: for the input/output variant, `take_call(x)` on an empty cell
returns exactly `x` unchanged as the `Err` result. -/
theorem C4_input_fidelity {I O : Type} (c : WithArgs.CallbackCellArgs I O)
    (x : I) (h : c.slot = none) :
    (c.take_call x).1 = Except.error x := by
  simp [WithArgs.CallbackCellArgs.take_call, h]

/-- Witness for C4 at a concrete empty cell and input. -/
theorem C4_input_fidelity_witness :
    ((WithArgs.CallbackCellArgs.new :
        WithArgs.CallbackCellArgs Nat Nat).take_call 3).1 = Except.error 3 :=
  C4_input_fidelity WithArgs.CallbackCellArgs.new 3 rfl

/-- Claim C9: for both variants `Default::default()` is `new()`: the same
empty cell, on which `take_call` reports absence. -/
theorem C9_default_is_new {I O : Type} (x : I) :
    WithoutArgs.CallbackCell.default = WithoutArgs.CallbackCell.new
    ∧ ((WithArgs.CallbackCellArgs.default : WithArgs.CallbackCellArgs I O)
        = WithArgs.CallbackCellArgs.new)
    ∧ WithoutArgs.CallbackCell.default.slot = none
    ∧ (WithoutArgs.CallbackCell.default.take_call).1 = false
    ∧ (((WithArgs.CallbackCellArgs.default :
          WithArgs.CallbackCellArgs I O).take_call x).1 = Except.error x) :=
  ⟨rfl, rfl, rfl, rfl, rfl⟩

/-- A concrete input/output cell over `Nat`, used to instantiate theorems
with hypotheses at a concrete state. -/
def acell0 : WithArgs.CallbackCellArgs Nat Nat := WithArgs.CallbackCellArgs.new

/-- Claim C5: `put(f1)` then `put(f2)` with no intervening `take_call`
disposes `f1` exactly once without ever running it, and a subsequent
`take_call` invokes `f2`'s envelope (and still never `f1`'s); the
input/output variant's `take_call(x)` after the two puts returns
`Ok (f2 x)`. -/
theorem C5_replacement_disposal {I O : Type} (c : WithoutArgs.CallbackCell)
    (hc : c.WF) (ca : WithArgs.CallbackCellArgs I O) (hca : ca.WF)
    (f1 f2 : I → O) (x : I) :
    (((c.put.put).events.drop c.events.length).count
        (Event.dispose c.nextId) = 1)
    ∧ (((c.put.put).events.drop c.events.length).count
        (Event.run c.nextId) = 0)
    ∧ ((c.put.put).take_call).1 = true
    ∧ ((((c.put.put).take_call).2.events.drop c.events.length).count
        (Event.run (c.nextId + 1)) = 1)
    ∧ ((((c.put.put).take_call).2.events.drop c.events.length).count
        (Event.run c.nextId) = 0)
    ∧ ((((ca.put f1).put f2).events.drop ca.events.length).count
        (Event.dispose ca.nextId) = 1)
    ∧ ((((ca.put f1).put f2).events.drop ca.events.length).count
        (Event.run ca.nextId) = 0)
    ∧ ((((ca.put f1).put f2).take_call x).1 = Except.ok (f2 x)) := by
  obtain ⟨slot, nid, evs⟩ := c
  obtain ⟨aslot, anid, aevs⟩ := ca
  refine ⟨?_, ?_, rfl, ?_, ?_, ?_, ?_, rfl⟩ <;>
  · first
    | (cases slot with
       | none =>
          simp [WithoutArgs.CallbackCell.put, WithoutArgs.CallbackCell.take_call,
            WithoutArgs.drop_raw, WithoutArgs.fn_ptr_impl, List.append_assoc,
            List.drop_left, List.count_cons, List.count_append]
       | some j =>
          have hj : j ≠ nid := Nat.ne_of_lt hc
          have hj2 : nid ≠ j := (Nat.ne_of_lt hc).symm
          simp [WithoutArgs.CallbackCell.put, WithoutArgs.CallbackCell.take_call,
            WithoutArgs.drop_raw, WithoutArgs.fn_ptr_impl, List.append_assoc,
            List.drop_left, List.count_cons, List.count_append, hj, hj2])
    | (cases aslot with
       | none =>
          simp [WithArgs.CallbackCellArgs.put, WithArgs.CallbackCellArgs.take_call,
            WithArgs.drop_raw, WithArgs.fn_ptr_impl, List.append_assoc,
            List.drop_left, List.count_cons, List.count_append]
       | some p =>
          obtain ⟨j, g⟩ := p
          have hj : j ≠ anid := Nat.ne_of_lt hca
          have hj2 : anid ≠ j := (Nat.ne_of_lt hca).symm
          simp [WithArgs.CallbackCellArgs.put, WithArgs.CallbackCellArgs.take_call,
            WithArgs.drop_raw, WithArgs.fn_ptr_impl, List.append_assoc,
            List.drop_left, List.count_cons, List.count_append, hj, hj2])

/-- Witness for C5 at concrete well-formed cells. -/
theorem C5_replacement_disposal_witness :
    (((WithoutArgs.CallbackCell.new.put.put).events.drop
        (WithoutArgs.CallbackCell.new.events.length)).count
        (Event.dispose WithoutArgs.CallbackCell.new.nextId) = 1)
    ∧ (((WithoutArgs.CallbackCell.new.put.put).events.drop
        (WithoutArgs.CallbackCell.new.events.length)).count
        (Event.run WithoutArgs.CallbackCell.new.nextId) = 0)
    ∧ ((WithoutArgs.CallbackCell.new.put.put).take_call).1 = true
    ∧ ((((WithoutArgs.CallbackCell.new.put.put).take_call).2.events.drop
        (WithoutArgs.CallbackCell.new.events.length)).count
        (Event.run (WithoutArgs.CallbackCell.new.nextId + 1)) = 1)
    ∧ ((((WithoutArgs.CallbackCell.new.put.put).take_call).2.events.drop
        (WithoutArgs.CallbackCell.new.events.length)).count
        (Event.run WithoutArgs.CallbackCell.new.nextId) = 0)
    ∧ ((((acell0.put (fun n => n + 1)).put
          (fun n => n * 2)).events.drop
        (acell0.events.length)).count
        (Event.dispose acell0.nextId) = 1)
    ∧ ((((acell0.put (fun n => n + 1)).put
          (fun n => n * 2)).events.drop
        (acell0.events.length)).count
        (Event.run acell0.nextId) = 0)
    ∧ ((((acell0.put (fun n => n + 1)).put
          (fun n => n * 2)).take_call 5).1 = Except.ok ((fun n => n * 2) 5)) :=
  C5_replacement_disposal WithoutArgs.CallbackCell.new (by decide)
    acell0 trivial (fun n => n + 1) (fun n => n * 2) 5

/-- Claim C6: destroying a cell that holds `f` (a `put` with no
`take_call`, then the destructor) disposes `f` exactly once without
invoking it; in the input/output variant the destruction path passes
`None` to the dispatch function, so the callback is never applied and no
output is written into the union. -/
theorem C6_destructor_disposal {I O : Type} (c : WithoutArgs.CallbackCell)
    (hc : c.WF) (ca : WithArgs.CallbackCellArgs I O) (hca : ca.WF)
    (f : I → O) :
    ((((c.put).dropCell).drop c.events.length).count
        (Event.dispose c.nextId) = 1)
    ∧ ((((c.put).dropCell).drop c.events.length).count
        (Event.run c.nextId) = 0)
    ∧ ((((ca.put f).dropCell).drop ca.events.length).count
        (Event.dispose ca.nextId) = 1)
    ∧ ((((ca.put f).dropCell).drop ca.events.length).count
        (Event.run ca.nextId) = 0)
    ∧ (∀ (id : Nat) (g : I → O),
        (WithArgs.fn_ptr_impl g id (none : Option (WithArgs.IoSlot I O))).1
          = none) := by
  obtain ⟨slot, nid, evs⟩ := c
  obtain ⟨aslot, anid, aevs⟩ := ca
  refine ⟨?_, ?_, ?_, ?_, fun id g => rfl⟩ <;>
  · first
    | (cases slot with
       | none =>
          simp [WithoutArgs.CallbackCell.put, WithoutArgs.CallbackCell.dropCell,
            WithoutArgs.drop_raw, WithoutArgs.fn_ptr_impl, List.append_assoc,
            List.drop_left, List.count_cons, List.count_append]
       | some j =>
          have hj : j ≠ nid := Nat.ne_of_lt hc
          have hj2 : nid ≠ j := (Nat.ne_of_lt hc).symm
          simp [WithoutArgs.CallbackCell.put, WithoutArgs.CallbackCell.dropCell,
            WithoutArgs.drop_raw, WithoutArgs.fn_ptr_impl, List.append_assoc,
            List.drop_left, List.count_cons, List.count_append, hj, hj2])
    | (cases aslot with
       | none =>
          simp [WithArgs.CallbackCellArgs.put, WithArgs.CallbackCellArgs.dropCell,
            WithArgs.drop_raw, WithArgs.fn_ptr_impl, List.append_assoc,
            List.drop_left, List.count_cons, List.count_append]
       | some p =>
          obtain ⟨j, g⟩ := p
          have hj : j ≠ anid := Nat.ne_of_lt hca
          have hj2 : anid ≠ j := (Nat.ne_of_lt hca).symm
          simp [WithArgs.CallbackCellArgs.put, WithArgs.CallbackCellArgs.dropCell,
            WithArgs.drop_raw, WithArgs.fn_ptr_impl, List.append_assoc,
            List.drop_left, List.count_cons, List.count_append, hj, hj2])

/-- Witness for C6 at concrete well-formed cells. -/
theorem C6_destructor_disposal_witness :
    ((((WithoutArgs.CallbackCell.new.put).dropCell).drop
        (WithoutArgs.CallbackCell.new.events.length)).count
        (Event.dispose WithoutArgs.CallbackCell.new.nextId) = 1)
    ∧ ((((WithoutArgs.CallbackCell.new.put).dropCell).drop
        (WithoutArgs.CallbackCell.new.events.length)).count
        (Event.run WithoutArgs.CallbackCell.new.nextId) = 0)
    ∧ ((((acell0.put (fun n => n + 7)).dropCell).drop
        (acell0.events.length)).count
        (Event.dispose acell0.nextId) = 1)
    ∧ ((((acell0.put (fun n => n + 7)).dropCell).drop
        (acell0.events.length)).count
        (Event.run acell0.nextId) = 0)
    ∧ (∀ (id : Nat) (g : Nat → Nat),
        (WithArgs.fn_ptr_impl g id (none : Option (WithArgs.IoSlot Nat Nat))).1
          = none) :=
  C6_destructor_disposal WithoutArgs.CallbackCell.new (by decide)
    acell0 trivial (fun n => n + 7)

/-- Claim C7: both variants follow the two-state machine over
Empty/Occupied (the slot being null or not): `new` is Empty; `put` leaves
the cell Occupied from either state, disposing the old occupant exactly
when there was one; `take_call` leaves the cell Empty from either state.
Both operations are total Lean functions on all states. -/
theorem C7_state_machine {I O : Type} (c : WithoutArgs.CallbackCell)
    (ca : WithArgs.CallbackCellArgs I O) (f : I → O) (x : I) :
    WithoutArgs.CallbackCell.new.slot = none
    ∧ (WithArgs.CallbackCellArgs.new : WithArgs.CallbackCellArgs I O).slot
        = none
    ∧ (c.put).slot = some c.nextId
    ∧ (ca.put f).slot.isSome = true
    ∧ (c.take_call).2.slot = none
    ∧ (ca.take_call x).2.slot = none
    ∧ (∀ j, c.slot = some j → (c.put).events
        = c.events ++ [Event.alloc c.nextId, Event.dispose j, Event.free j])
    ∧ (c.slot = none → (c.put).events = c.events ++ [Event.alloc c.nextId]) := by
  refine ⟨rfl, rfl, rfl, rfl, ?_, ?_, ?_, ?_⟩
  · cases h : c.slot <;> simp [WithoutArgs.CallbackCell.take_call, h]
  · cases h : ca.slot with
    | none => simp [WithArgs.CallbackCellArgs.take_call, h]
    | some p =>
        cases p
        simp [WithArgs.CallbackCellArgs.take_call, h]
  · intro j hj
    simp [WithoutArgs.CallbackCell.put, hj, WithoutArgs.drop_raw,
      WithoutArgs.fn_ptr_impl]
  · intro hj
    simp [WithoutArgs.CallbackCell.put, hj, WithoutArgs.drop_raw]

/-- Claim C8: the `Debug` formatting of a cell writes exactly one of two
fixed strings, determined solely by whether the slot pointer is null, and
so never exposes the occupant: two cells agreeing on nullness format
identically. -/
theorem C8_debug_snapshot {I O : Type} (c : WithoutArgs.CallbackCell)
    (ca : WithArgs.CallbackCellArgs I O) :
    ((c.fmt).1 = "CallbackCell(NULL)" ∨ (c.fmt).1 = "CallbackCell(NOT NULL)")
    ∧ ((c.fmt).1 = "CallbackCell(NULL)" ↔ c.slot = none)
    ∧ (∀ c2 : WithoutArgs.CallbackCell,
        (c.slot = none ↔ c2.slot = none) → (c.fmt).1 = (c2.fmt).1)
    ∧ ((ca.fmt).1 = "CallbackCellArgs(NULL)"
        ∨ (ca.fmt).1 = "CallbackCellArgs(NOT NULL)")
    ∧ ((ca.fmt).1 = "CallbackCellArgs(NULL)" ↔ ca.slot.isNone = true)
    ∧ (∀ ca2 : WithArgs.CallbackCellArgs I O,
        ca.slot.isNone = ca2.slot.isNone → (ca.fmt).1 = (ca2.fmt).1) := by
  refine ⟨?_, ?_, ?_, ?_, ?_, ?_⟩
  · by_cases h : c.slot = none <;> simp [WithoutArgs.CallbackCell.fmt, h]
  · by_cases h : c.slot = none <;> simp [WithoutArgs.CallbackCell.fmt, h]
  · intro c2 h
    by_cases h1 : c.slot = none
    · have h2 : c2.slot = none := h.mp h1
      simp [WithoutArgs.CallbackCell.fmt, h1, h2]
    · have h2 : ¬ c2.slot = none := fun hn => h1 (h.mpr hn)
      simp [WithoutArgs.CallbackCell.fmt, h1, h2]
  · by_cases h : ca.slot.isNone <;> simp [WithArgs.CallbackCellArgs.fmt, h]
  · by_cases h : ca.slot.isNone <;> simp [WithArgs.CallbackCellArgs.fmt, h]
  · intro ca2 h
    by_cases h1 : ca.slot.isNone
    · have h2 : ca2.slot.isNone = true := by rw [← h]; exact h1
      simp [WithArgs.CallbackCellArgs.fmt, h1, h2]
    · have h2 : ¬ ca2.slot.isNone = true := by rw [← h]; exact h1
      simp [WithArgs.CallbackCellArgs.fmt, h1, h2]

/-- Claim C10: the `Debug` formatting only loads the slot, so it leaves the
cell unchanged, and `put` and `take_call` behave after a snapshot exactly
as without it. -/
theorem C10_fmt_frame {I O : Type} (c : WithoutArgs.CallbackCell)
    (ca : WithArgs.CallbackCellArgs I O) (f : I → O) (x : I) :
    (c.fmt).2 = c
    ∧ ((c.fmt).2).put = c.put
    ∧ ((c.fmt).2).take_call = c.take_call
    ∧ (ca.fmt).2 = ca
    ∧ ((ca.fmt).2).put f = ca.put f
    ∧ ((ca.fmt).2).take_call x = ca.take_call x := by
  have h1 : (c.fmt).2 = c := by
    unfold WithoutArgs.CallbackCell.fmt
    split <;> rfl
  have h2 : (ca.fmt).2 = ca := by
    unfold WithArgs.CallbackCellArgs.fmt
    split <;> rfl
  exact ⟨h1, by rw [h1], by rw [h1], h2, by rw [h2], by rw [h2]⟩

/-- Over a linearized swap history starting from slot contents `s`, the
values handed back to the swapping operations plus the final slot contents
are exactly `s` followed by the swapped-in values: counting any value `v`,
handed-back occurrences plus the final occurrence equal its occurrences in
`s :: ops`. -/
theorem Slot.count_runSwaps (s : Option Nat) (ops : List (Option Nat))
    (v : Option Nat) :
    (Slot.runSwaps s ops).1.count v
      + (if (Slot.runSwaps s ops).2 = v then 1 else 0)
      = (s :: ops).count v := by
  induction ops generalizing s with
  | nil =>
      simp only [Slot.runSwaps, List.count_nil, List.count_cons, Nat.zero_add]
      by_cases h : s = v <;> simp [h]
  | cons op ops ih =>
      have h := ih op
      simp only [Slot.runSwaps, List.count_cons] at *
      by_cases hs : s = v <;> simp [hs] at * <;> omega

/-- Claim C2: in any linearized history of concurrent `put`/`take_call`
swaps on one cell followed by destruction, an envelope swapped in by
exactly one `put` (pointers from the allocator are fresh) is claimed by
exactly one observer: either exactly one later swap hands it back, or it
alone remains for the destructor — never two claimants, never zero.  The
claiming observer passes the pointer to the dispatch function exactly once,
which on every mode runs or disposes the callback exactly once and frees
the allocation exactly once, in both variants. -/
theorem C2_exactly_once_claim {I O : Type} (g : I → O)
    (ops : List (Option Nat)) (id : Nat)
    (hfresh : ops.count (some id) = 1) :
    Slot.claimCount ops id = 1
    ∧ (∀ b : Bool, (WithoutArgs.fn_ptr_impl b id).count (Event.free id) = 1)
    ∧ (∀ b : Bool, (WithoutArgs.fn_ptr_impl b id).count (Event.run id)
        + (WithoutArgs.fn_ptr_impl b id).count (Event.dispose id) = 1)
    ∧ (∀ io : Option (WithArgs.IoSlot I O),
        (WithArgs.fn_ptr_impl g id io).2.count (Event.free id) = 1)
    ∧ (∀ x : I,
        (WithArgs.fn_ptr_impl g id
            (some (WithArgs.IoSlot.input x))).2.count (Event.run id)
          + (WithArgs.fn_ptr_impl g id
              (some (WithArgs.IoSlot.input x))).2.count (Event.dispose id) = 1)
    ∧ ((WithArgs.fn_ptr_impl g id
          (none : Option (WithArgs.IoSlot I O))).2.count (Event.run id)
        + (WithArgs.fn_ptr_impl g id
            (none : Option (WithArgs.IoSlot I O))).2.count (Event.dispose id)
          = 1) := by
  refine ⟨?_, ?_, ?_, ?_, ?_, ?_⟩
  · have h := Slot.count_runSwaps none ops (some id)
    by_cases hf : (Slot.runSwaps none ops).2 = some id <;>
      simp [List.count_cons, hf, Slot.claimCount] at h ⊢ <;> omega
  · intro b
    cases b <;> simp [WithoutArgs.fn_ptr_impl, List.count_cons]
  · intro b
    cases b <;> simp [WithoutArgs.fn_ptr_impl, List.count_cons]
  · intro io
    rcases io with _ | io
    · simp [WithArgs.fn_ptr_impl, List.count_cons]
    · rcases io with x | o <;> simp [WithArgs.fn_ptr_impl, List.count_cons]
  · intro x
    simp [WithArgs.fn_ptr_impl, List.count_cons]
  · simp [WithArgs.fn_ptr_impl, List.count_cons]

/-- Witness for C2: a history with one `put` of envelope `0` and one
`take_call`. -/
theorem C2_exactly_once_claim_witness :
    Slot.claimCount [some 0, none] 0 = 1
    ∧ (∀ b : Bool,
        (WithoutArgs.fn_ptr_impl b 0).count (Event.free 0) = 1)
    ∧ (∀ b : Bool, (WithoutArgs.fn_ptr_impl b 0).count (Event.run 0)
        + (WithoutArgs.fn_ptr_impl b 0).count (Event.dispose 0) = 1)
    ∧ (∀ io : Option (WithArgs.IoSlot Nat Nat),
        (WithArgs.fn_ptr_impl (fun n => n + 1) 0 io).2.count (Event.free 0) = 1)
    ∧ (∀ x : Nat,
        (WithArgs.fn_ptr_impl (fun n => n + 1) 0
            (some (WithArgs.IoSlot.input x))).2.count (Event.run 0)
          + (WithArgs.fn_ptr_impl (fun n => n + 1) 0
              (some (WithArgs.IoSlot.input x))).2.count (Event.dispose 0) = 1)
    ∧ ((WithArgs.fn_ptr_impl (fun n => n + 1) 0
          (none : Option (WithArgs.IoSlot Nat Nat))).2.count (Event.run 0)
        + (WithArgs.fn_ptr_impl (fun n => n + 1) 0
            (none : Option (WithArgs.IoSlot Nat Nat))).2.count (Event.dispose 0)
          = 1) :=
  C2_exactly_once_claim (fun n => n + 1) [some 0, none] 0 (by decide)

end CallbackCellRepo
